import Mathlib

/-!
Verification of `kernel/sched/cpu_idleruntime.c` (per-CPU idle/run time
accounting exposed through procfs).

The per-CPU state consists of four `unsigned long long` variables
(`idlestart`, `idlestop`, `idletime`, `runtime`) guarded by a per-CPU raw
spinlock.  Every lock-protected critical section of the C code is modelled
as a pure state transformer on a `Cell` (the four variables of one CPU);
the lock makes each such section atomic, which is exactly what a pure
transformer expresses.  `unsigned long long` arithmetic is 64-bit
wrap-around arithmetic, modelled on `Nat` with explicit reduction
modulo `2 ^ 64`.
-/

/-- Modulus of the kernel's `unsigned long long` arithmetic. -/
def W : Nat := 2 ^ 64

/-- Wrap-around 64-bit addition (`a + b` on `unsigned long long`). -/
def add64 (a b : Nat) : Nat := (a + b) % W

/-- Wrap-around 64-bit subtraction (`a - b` on `unsigned long long`). -/
def sub64 (a b : Nat) : Nat := (a + (W - b % W)) % W

/-- One CPU's accounting state: the four per-CPU variables declared at the
top of `cpu_idleruntime.c`.  `idlestart` is the spec's `idle_mark`,
`idlestop` the spec's `run_mark`, `idletime` the spec's `idle_accum`,
`runtime` the spec's `run_accum`. -/
structure Cell where
  idlestart : Nat
  idlestop : Nat
  idletime : Nat
  runtime : Nat
deriving DecidableEq

/-- Representation invariant: each variable holds a 64-bit value. -/
def Cell.wf (c : Cell) : Prop :=
  c.idlestart < W ∧ c.idlestop < W ∧ c.idletime < W ∧ c.runtime < W

instance (c : Cell) : Decidable c.wf := by
  unfold Cell.wf; infer_instance

/-- Body of `idleruntime_get` (lines 36-56 of the source): under the
per-CPU lock, sample `now = cpu_clock(cpu)`; if the current task is the
idle task add `now - idlestart` to `idletime`, otherwise add
`now - idlestop` to `runtime`; report the resulting `idletime` and
`runtime` through the two out-parameters.  `curr_is_idle` is the value of
`is_idle_task(cpu_rq(cpu)->curr)` and `now` the sampled clock value; the
function returns the updated cell together with the reported pair. -/
def idleruntime_get (curr_is_idle : Bool) (now : Nat) (c : Cell) :
    Cell × Nat × Nat :=
  let c' :=
    if curr_is_idle then
      { c with idletime := add64 c.idletime (sub64 now c.idlestart) }
    else
      { c with runtime := add64 c.runtime (sub64 now c.idlestop) }
  (c', c'.idletime, c'.runtime)

/-- Body of `idleruntime_reset1` (lines 97-105 of the source): under the
per-CPU lock, zero both accumulators and set both marks to
`cpu_clock(cpu)` (passed here as `now`). -/
def idleruntime_reset1 (now : Nat) (_c : Cell) : Cell :=
  { idlestart := now, idlestop := now, idletime := 0, runtime := 0 }

/-! ### Sequences of reads (C6) -/

/-- Totals reported by a sequence of successive `idleruntime_get` calls on
one cell; each sample supplies the idle-task flag and the clock value of
that call. -/
def runGets (c : Cell) : List (Bool × Nat) → List (Nat × Nat)
  | [] => []
  | s :: rest =>
      (idleruntime_get s.1 s.2 c).2
        :: runGets (idleruntime_get s.1 s.2 c).1 rest

/-- Exact elapsed delta a sample adds when no wrap occurs. -/
def deltaOf (c : Cell) (s : Bool × Nat) : Nat :=
  if s.1 then s.2 - c.idlestart else s.2 - c.idlestop

/-- Side conditions for a sequence of reads: each sampled clock value is a
64-bit value at or after the relevant mark (the clock never runs
backwards past a mark), and neither accumulator overflows 64 bits over
the whole sequence. -/
def goodRun (c : Cell) (ss : List (Bool × Nat)) : Prop :=
  (∀ s ∈ ss, (if s.1 then c.idlestart else c.idlestop) ≤ s.2 ∧ s.2 < W)
  ∧ c.idletime + ((ss.filter (fun s => s.1)).map (deltaOf c)).sum < W
  ∧ c.runtime + ((ss.filter (fun s => !s.1)).map (deltaOf c)).sum < W

instance (c : Cell) (ss : List (Bool × Nat)) : Decidable (goodRun c ss) := by
  unfold goodRun; infer_instance

/-! ### The accounting domain: per-CPU cells plus the procfs exposure -/

/-- Pointwise update of a per-CPU cell map. -/
def setCell (f : Nat → Cell) (i : Nat) (v : Cell) : Nat → Cell :=
  fun j => if j = i then v else f j

/-- Pointwise update of a per-CPU flag map. -/
def setBool (f : Nat → Bool) (i : Nat) (v : Bool) : Nat → Bool :=
  fun j => if j = i then v else f j

/-- Error taxonomy of the spec's accounting domain. -/
inductive DomainError where
  | UnknownCoreError
  | DuplicateCoreError
deriving DecidableEq

/-- Domain state: the per-CPU cells (per-CPU variables exist for every
CPU), the present-CPU list (`cpu_present_mask`, host managed), and the
procfs exposure: whether the directory name `cpu<i>` is registered in
procfs, whether the `data`/`reset` entries exist under it, and whether
the per-CPU handle `idleruntime_dir` is non-NULL.  `root_idleruntime_dir`
is taken to be non-NULL (initialization succeeded). -/
structure Domain where
  cells : Nat → Cell
  present : List Nat
  procName : Nat → Bool
  dataFile : Nat → Bool
  dirHandle : Nat → Bool

/-- Notifier return value `NOTIFY_OK` (from `include/linux/notifier.h`). -/
def NOTIFY_OK : Nat := 0x0001

/-- Hotplug action `CPU_ONLINE` (from `include/linux/cpu.h`). -/
def CPU_ONLINE : Nat := 0x0002

/-- Hotplug action `CPU_DEAD` (from `include/linux/cpu.h`). -/
def CPU_DEAD : Nat := 0x0007

/-- Loop body of `idleruntime_show_all` (lines 75-95 of the source):
`for_each_present_cpu`, call `idleruntime_get`, and add each reported
pair into the two `unsigned long long` running totals. -/
def show_all_go (idle : Nat → Bool) (clk : Nat → Nat) :
    List Nat → (Nat → Cell) → Nat → Nat → (Nat → Cell) × Nat × Nat
  | [], cells, ti, tr => (cells, ti, tr)
  | cpu :: rest, cells, ti, tr =>
      show_all_go idle clk rest
        (setCell cells cpu
          (idleruntime_get (idle cpu) (clk cpu) (cells cpu)).1)
        (add64 ti (idleruntime_get (idle cpu) (clk cpu) (cells cpu)).2.1)
        (add64 tr (idleruntime_get (idle cpu) (clk cpu) (cells cpu)).2.2)

/-- Full `idleruntime_show_all`: totals start at `0ULL`, the present list
is scanned, and the pair of totals is emitted. -/
def idleruntime_show_all (idle : Nat → Bool) (clk : Nat → Nat)
    (d : Domain) : Domain × Nat × Nat :=
  ({ d with cells := (show_all_go idle clk d.present d.cells 0 0).1 },
   (show_all_go idle clk d.present d.cells 0 0).2)

/-- Modelled from the spec: the spec's `read_core(id)` reaches
`idleruntime_get` through a procfs read of `cpu<id>/data`
(`idleruntime_show`, lines 65-74); the lookup of that file is done by the
VFS/procfs layer of this repository, which is not under `src/`, and fails
for an absent file — the spec's `UnknownCoreError`.  When the file is
present the read delegates to `idleruntime_get` for that CPU. -/
def read_core (idle : Nat → Bool) (clk : Nat → Nat) (id : Nat)
    (d : Domain) : Except DomainError (Domain × Nat × Nat) :=
  if d.dataFile id then
    let r := idleruntime_get (idle id) (clk id) (d.cells id)
    Except.ok ({ d with cells := setCell d.cells id r.1 }, r.2)
  else
    Except.error DomainError.UnknownCoreError

/-- Modelled from the spec: the spec's `reset_core(id)` reaches
`idleruntime_reset1` through a procfs write to `cpu<id>/reset`
(`idleruntime_reset`, lines 107-114); as for `read_core`, the VFS lookup
(not under `src/`) fails for an absent file with the spec's
`UnknownCoreError`. -/
def reset_core (clk : Nat → Nat) (id : Nat) (d : Domain) :
    Except DomainError Domain :=
  if d.dataFile id then
    let r := idleruntime_reset1 (clk id) (d.cells id)
    Except.ok { d with cells := setCell d.cells id r }
  else
    Except.error DomainError.UnknownCoreError

/-- Body of `setup_procfiles` (lines 158-175 of the source): make the
procfs directory `cpu<i>`, create the `data` and `reset` entries when
that succeeded, and store the directory handle (NULL on failure) in
`idleruntime_dir`.  `proc_mkdir` itself is repository code not under
`src/` and is modelled from its documented behaviour: registering a name
that already exists fails and returns NULL, leaving the existing entry in
place. -/
def setup_procfiles (cpu : Nat) (d : Domain) : Domain :=
  if d.procName cpu then
    { d with dirHandle := setBool d.dirHandle cpu false }
  else
    { d with
        procName := setBool d.procName cpu true,
        dataFile := setBool d.dataFile cpu true,
        dirHandle := setBool d.dirHandle cpu true }

/-- Body of `unset_procfiles` (lines 177-188 of the source): when the
stored handle is non-NULL, remove the `reset` and `data` entries, remove
the directory, and clear the handle; otherwise do nothing. -/
def unset_procfiles (cpu : Nat) (d : Domain) : Domain :=
  if d.dirHandle cpu then
    { d with
        procName := setBool d.procName cpu false,
        dataFile := setBool d.dataFile cpu false,
        dirHandle := setBool d.dirHandle cpu false }
  else d

/-- Body of `idleruntime_cpu_callback` (lines 190-206 of the source): on
`CPU_ONLINE` run `setup_procfiles`, on `CPU_DEAD` run `unset_procfiles`,
and in every case return `NOTIFY_OK`. -/
def idleruntime_cpu_callback (action : Nat) (cpu : Nat) (d : Domain) :
    Domain × Nat :=
  if action = CPU_ONLINE then (setup_procfiles cpu d, NOTIFY_OK)
  else if action = CPU_DEAD then (unset_procfiles cpu d, NOTIFY_OK)
  else (d, NOTIFY_OK)

/-- Error component of a fallible domain operation, if any. -/
def errorOf {α : Type} : Except DomainError α → Option DomainError
  | Except.error e => some e
  | Except.ok _ => none

/-- Concrete domain with CPU 0 present and exposed and a cell carrying a
nonzero idle accumulator. -/
def leaveJoinDomain : Domain where
  cells := fun _ => ⟨0, 0, 100, 0⟩
  present := [0]
  procName := fun i => i == 0
  dataFile := fun i => i == 0
  dirHandle := fun i => i == 0

/-- Concrete domain with no CPU exposed yet. -/
def freshDomain : Domain where
  cells := fun _ => ⟨1, 2, 3, 4⟩
  present := [0]
  procName := fun _ => false
  dataFile := fun _ => false
  dirHandle := fun _ => false

/-- Concrete two-CPU domain for the aggregation witness. -/
def aggDomain : Domain where
  cells := fun cpu => ⟨0, 0, cpu, 0⟩
  present := [0, 1]
  procName := fun _ => true
  dataFile := fun _ => true
  dirHandle := fun _ => true

/-! ### Arithmetic and claim theorems -/

theorem W_pos : 0 < W := by unfold W; positivity

theorem add64_lt (a b : Nat) : add64 a b < W :=
  Nat.mod_lt _ W_pos

theorem sub64_lt (a b : Nat) : sub64 a b < W :=
  Nat.mod_lt _ W_pos

/-- When no borrow occurs, 64-bit subtraction is plain subtraction. -/
theorem sub64_of_le {a b : Nat} (hba : b ≤ a) (ha : a < W) :
    sub64 a b = a - b := by
  unfold sub64
  have hb : b < W := lt_of_le_of_lt hba ha
  rw [Nat.mod_eq_of_lt hb]
  have h1 : a + (W - b) = W + (a - b) := by omega
  rw [h1, Nat.add_mod_left]
  exact Nat.mod_eq_of_lt (by omega)

/-- When a borrow occurs (`a < b`), 64-bit subtraction wraps around to the
huge value `W - (b - a)`. -/
theorem sub64_of_lt {a b : Nat} (hab : a < b) (hb : b < W) :
    sub64 a b = W - (b - a) := by
  unfold sub64
  rw [Nat.mod_eq_of_lt hb]
  have h1 : a + (W - b) = W - (b - a) := by omega
  rw [h1]
  exact Nat.mod_eq_of_lt (by omega)

/-- When no carry occurs, 64-bit addition is plain addition. -/
theorem add64_of_lt {a b : Nat} (h : a + b < W) : add64 a b = a + b :=
  Nat.mod_eq_of_lt h

/-- Adding a 64-bit delta to an in-range value is the identity exactly
when the delta is zero. -/
theorem add64_eq_self_iff {a d : Nat} (ha : a < W) (hd : d < W) :
    add64 a d = a ↔ d = 0 := by
  constructor
  · intro h
    unfold add64 at h
    rcases Nat.lt_or_ge (a + d) W with hlt | hge
    · rw [Nat.mod_eq_of_lt hlt] at h; omega
    · have h2 : a + d - W < W := by omega
      have h3 : (a + d) % W = a + d - W := by
        conv_lhs => rw [show a + d = (a + d - W) + 1 * W by omega]
        rw [Nat.add_mul_mod_self_right]
        exact Nat.mod_eq_of_lt h2
      omega
  · intro h; subst h; exact Nat.mod_eq_of_lt (by omega)

/-! ### Generic facts about `idleruntime_get` -/

/-- A helper for the two-successive-reads computation: the amount by which
the touched accumulator grows over a second read at a later instant. -/
theorem two_reads_diff (A m now1 now2 : Nat) (hm : m ≤ now1)
    (h12 : now1 ≤ now2) (h2 : now2 < W)
    (hov : A + (now1 - m) + (now2 - m) < W) :
    add64 (add64 A (sub64 now1 m)) (sub64 now2 m)
      - add64 A (sub64 now1 m) = now2 - m := by
  have h1 : now1 < W := lt_of_le_of_lt h12 h2
  rw [sub64_of_le hm h1, sub64_of_le (le_trans hm h12) h2]
  have hA : add64 A (now1 - m) = A + (now1 - m) := add64_of_lt (by omega)
  rw [hA, add64_of_lt (by omega)]
  omega

/-! ### Claim theorems: the per-cell operations -/

/-- C4: `update_and_read` (the lock-protected body of `idleruntime_get`)
adds `now - idle_mark` to `idle_accum` when the current task is the idle
placeholder, otherwise adds `now - run_mark` to `run_accum`, and reports
the resulting pair `(idle_accum, run_accum)`; the accumulator of the state
the core is not in is untouched (that interval is not closed here). -/
theorem C4_update_and_read (b : Bool) (now : Nat) (c : Cell) :
    ((idleruntime_get b now c).1.idletime
        = if b then add64 c.idletime (sub64 now c.idlestart) else c.idletime)
    ∧ ((idleruntime_get b now c).1.runtime
        = if b then c.runtime else add64 c.runtime (sub64 now c.idlestop))
    ∧ (idleruntime_get b now c).2
        = ((idleruntime_get b now c).1.idletime,
           (idleruntime_get b now c).1.runtime) := by
  cases b <;> simp [idleruntime_get]

/-- C10: a call to `idleruntime_get` modifies neither mark (`idlestart`,
`idlestop` keep their values) and modifies only the accumulator of the
state the core is currently in; the other accumulator is unchanged. -/
theorem C10_get_frame (b : Bool) (now : Nat) (c : Cell) :
    (idleruntime_get b now c).1.idlestart = c.idlestart
    ∧ (idleruntime_get b now c).1.idlestop = c.idlestop
    ∧ (if b then (idleruntime_get b now c).1.runtime = c.runtime
        else (idleruntime_get b now c).1.idletime = c.idletime)
    ∧ (if b then (idleruntime_get b now c).1.idletime
            = add64 c.idletime (sub64 now c.idlestart)
        else (idleruntime_get b now c).1.runtime
            = add64 c.runtime (sub64 now c.idlestop)) := by
  cases b <;> simp [idleruntime_get]

/-- C5: `idleruntime_reset1` zeroes both accumulators and sets both marks
to the sampled clock value, and an `idleruntime_get` at that same instant
(no elapsed time) reports `(0, 0)`. -/
theorem C5_reset_then_read (b : Bool) (now : Nat) (c : Cell)
    (h : now < W) :
    idleruntime_reset1 now c = ⟨now, now, 0, 0⟩
    ∧ (idleruntime_get b now (idleruntime_reset1 now c)).2 = (0, 0) := by
  refine ⟨rfl, ?_⟩
  have hz : sub64 now now = 0 := by
    rw [sub64_of_le le_rfl h]; omega
  cases b <;> simp [idleruntime_get, idleruntime_reset1, hz, add64]

/-- C5 witness: a concrete reset followed by a read at the same instant. -/
theorem C5_reset_then_read_witness :
    (3 : Nat) < W
    ∧ (idleruntime_reset1 3 ⟨1, 2, 3, 4⟩ = ⟨3, 3, 0, 0⟩
       ∧ (idleruntime_get true 3 (idleruntime_reset1 3 ⟨1, 2, 3, 4⟩)).2
           = (0, 0)) :=
  ⟨by decide, C5_reset_then_read true 3 ⟨1, 2, 3, 4⟩ (by decide)⟩

/-- C1 counterexample: `idleruntime_get` does not advance the marks, so
two successive calls at the same clock instant do not return equal
totals — the second call adds the whole open-interval delta again.  From
the state with `idlestart = 0` and `now = 5` while idle, the first call
reports an idle total of 5 and the second call, at the same instant,
reports 10. -/
theorem C1_counterexample :
    (idleruntime_get true 5 ⟨0, 0, 0, 0⟩).2 = (5, 0)
    ∧ (idleruntime_get true 5 (idleruntime_get true 5 ⟨0, 0, 0, 0⟩).1).2
        = (10, 0)
    ∧ ((10 : Nat), (0 : Nat)) ≠ ((5 : Nat), (0 : Nat)) := by
  decide

/-- C1 amended: `idleruntime_get` advances neither mark, so a second call
at the same clock instant adds the delta `now - mark` to the touched
accumulator again; the two calls report equal totals exactly when that
delta is zero, i.e. when `now` equals the current state's mark. -/
theorem C1_amended_repeat_read (b : Bool) (now : Nat) (c : Cell) :
    (idleruntime_get b now (idleruntime_get b now c).1).2
        = (idleruntime_get b now c).2
    ↔ sub64 now (if b then c.idlestart else c.idlestop) = 0 := by
  cases b
  · simp only [idleruntime_get, Bool.false_eq_true, if_false, Prod.mk.injEq,
      true_and, and_iff_right rfl]
    exact add64_eq_self_iff (add64_lt _ _) (sub64_lt _ _)
  · simp only [idleruntime_get, if_true, Prod.mk.injEq, and_true,
      and_iff_left rfl]
    exact add64_eq_self_iff (add64_lt _ _) (sub64_lt _ _)

/-- C2 counterexample: core idle throughout, cell with both marks 0 and
both accumulators 0 (the core entered idle at time 0); reads at
`now₁ = 1` and `now₂ = 2` report idle totals 1 and 3, so the summed
increase is 2, not `now₂ - now₁ = 1`: conservation as claimed fails
because the mark is not advanced by the first read. -/
theorem C2_counterexample :
    (idleruntime_get true 1 ⟨0, 0, 0, 0⟩).2 = (1, 0)
    ∧ (idleruntime_get true 2 (idleruntime_get true 1 ⟨0, 0, 0, 0⟩).1).2
        = (3, 0)
    ∧ (3 - 1) + (0 - 0) ≠ (2 : Nat) - 1 := by
  decide

/-- C2 amended: for a core staying in one state across two successive
reads, the summed increase of the two totals is `now₂ - mark`, where
`mark` is the baseline of the state's open interval — not `now₂ - now₁`;
the two agree exactly when the first read happens at the instant the mark
was set. -/
theorem C2_amended_conservation (b : Bool) (now1 now2 : Nat) (c : Cell)
    (hm : (if b then c.idlestart else c.idlestop) ≤ now1)
    (h12 : now1 ≤ now2) (h2 : now2 < W)
    (hov : (if b then c.idletime else c.runtime)
        + (now1 - (if b then c.idlestart else c.idlestop))
        + (now2 - (if b then c.idlestart else c.idlestop)) < W) :
    ((idleruntime_get b now2 (idleruntime_get b now1 c).1).2.1
        - (idleruntime_get b now1 c).2.1)
    + ((idleruntime_get b now2 (idleruntime_get b now1 c).1).2.2
        - (idleruntime_get b now1 c).2.2)
    = now2 - (if b then c.idlestart else c.idlestop) := by
  cases b
  · simp only [Bool.false_eq_true, if_false] at hm hov ⊢
    simp only [idleruntime_get, Bool.false_eq_true, if_false]
    rw [two_reads_diff c.runtime c.idlestop now1 now2 hm h12 h2 hov]
    omega
  · simp only [if_true] at hm hov ⊢
    simp only [idleruntime_get, if_true]
    rw [two_reads_diff c.idletime c.idlestart now1 now2 hm h12 h2 hov]
    omega

/-- C2 witness: the amended conservation at a concrete input (idle core,
marks 0, reads at 1 and 2: summed increase is `2 - 0`). -/
theorem C2_amended_conservation_witness :
    ((if true then (0 : Nat) else 0) ≤ 1 ∧ (1 : Nat) ≤ 2 ∧ (2 : Nat) < W
     ∧ (if true then (0 : Nat) else 0) + (1 - 0) + (2 - 0) < W)
    ∧ ((idleruntime_get true 2 (idleruntime_get true 1 ⟨0, 0, 0, 0⟩).1).2.1
        - (idleruntime_get true 1 (⟨0, 0, 0, 0⟩ : Cell)).2.1)
      + ((idleruntime_get true 2 (idleruntime_get true 1 ⟨0, 0, 0, 0⟩).1).2.2
        - (idleruntime_get true 1 (⟨0, 0, 0, 0⟩ : Cell)).2.2)
      = 2 - (if true then (0 : Nat) else 0) :=
  ⟨⟨by decide, by decide, by decide, by decide⟩,
    C2_amended_conservation true 1 2 ⟨0, 0, 0, 0⟩ (by decide) (by decide)
      (by decide) (by decide)⟩

/-- C3 counterexample: there is no defensive clamp.  With `idlestart = 1`
and a sampled `now = 0` (a negative-appearing delta) while idle, the
unsigned subtraction wraps and the reported idle total is `2^64 - 1`,
not 0. -/
theorem C3_counterexample :
    (idleruntime_get true 0 ⟨1, 0, 0, 0⟩).2.1 = W - 1 ∧ W - 1 ≠ 0 := by
  decide

/-- C3 amended: when `now` is below the current state's mark, the delta
added to the accumulator is the wrapped value `2^64 - (mark - now)` — a
huge nonzero quantity, not a clamped zero — so a clock anomaly does
corrupt the accumulator. -/
theorem C3_amended_no_clamp (b : Bool) (now : Nat) (c : Cell)
    (h1 : now < (if b then c.idlestart else c.idlestop))
    (h2 : (if b then c.idlestart else c.idlestop) < W) :
    (idleruntime_get b now c).2
      = (if b then (add64 c.idletime (W - (c.idlestart - now)), c.runtime)
          else (c.idletime, add64 c.runtime (W - (c.idlestop - now))))
    ∧ W - ((if b then c.idlestart else c.idlestop) - now) ≠ 0 := by
  cases b
  · simp only [Bool.false_eq_true, if_false] at h1 h2 ⊢
    refine ⟨?_, by omega⟩
    simp only [idleruntime_get, Bool.false_eq_true, if_false]
    rw [sub64_of_lt h1 h2]
  · simp only [if_true] at h1 h2 ⊢
    refine ⟨?_, by omega⟩
    simp only [idleruntime_get, if_true]
    rw [sub64_of_lt h1 h2]

/-- C3 witness: the amended no-clamp behaviour at `now = 0`,
`idlestart = 1`. -/
theorem C3_amended_no_clamp_witness :
    ((0 : Nat) < (if true then (1 : Nat) else 0)
     ∧ (if true then (1 : Nat) else 0) < W)
    ∧ (idleruntime_get true 0 ⟨1, 0, 0, 0⟩).2
        = (if true then (add64 0 (W - (1 - 0)), 0)
            else ((0 : Nat), add64 0 (W - (0 - 0))))
      ∧ W - ((if true then (1 : Nat) else 0) - 0) ≠ 0 :=
  ⟨⟨by decide, by decide⟩,
    C3_amended_no_clamp true 0 ⟨1, 0, 0, 0⟩ (by decide) (by decide)⟩

/-! ### Sequences of reads: theorems -/

/-- One step of a good run: the cell after the first read keeps both
marks, its accumulators do not decrease, and the remaining samples are
still a good run for it. -/
theorem goodRun_step (c : Cell) (b : Bool) (now : Nat)
    (rest : List (Bool × Nat)) (h : goodRun c ((b, now) :: rest)) :
    (idleruntime_get b now c).1.idlestart = c.idlestart
    ∧ (idleruntime_get b now c).1.idlestop = c.idlestop
    ∧ c.idletime ≤ (idleruntime_get b now c).1.idletime
    ∧ c.runtime ≤ (idleruntime_get b now c).1.runtime
    ∧ goodRun (idleruntime_get b now c).1 rest := by
  obtain ⟨hall, hi, hr⟩ := h
  have hhead := hall (b, now) (List.mem_cons_self _ _)
  have htail : ∀ s ∈ rest, (if s.1 then c.idlestart else c.idlestop) ≤ s.2
      ∧ s.2 < W := fun s hs => hall s (List.mem_cons_of_mem _ hs)
  cases b
  · -- running: runtime += now - idlestop
    simp only [Bool.false_eq_true, if_false] at hhead
    have hd : sub64 now c.idlestop = now - c.idlestop :=
      sub64_of_le hhead.1 hhead.2
    simp only [List.filter_cons, Bool.false_eq_true, decide_False,
      Bool.not_false, decide_True, if_false, if_true, List.map_cons,
      List.sum_cons, deltaOf] at hi hr
    have hradd : add64 c.runtime (sub64 now c.idlestop)
        = c.runtime + (now - c.idlestop) := by
      rw [hd]; exact add64_of_lt (by omega)
    refine ⟨rfl, rfl, le_rfl, ?_, ?_, ?_, ?_⟩
    · show c.runtime ≤ add64 c.runtime (sub64 now c.idlestop)
      rw [hradd]; omega
    · exact htail
    · show (idleruntime_get false now c).1.idletime
          + ((rest.filter (fun s => s.1)).map
              (deltaOf (idleruntime_get false now c).1)).sum < W
      have hmap : (rest.filter (fun s => s.1)).map
            (deltaOf (idleruntime_get false now c).1)
          = (rest.filter (fun s => s.1)).map (deltaOf c) :=
        List.map_congr_left (fun s _ => rfl)
      rw [hmap]
      exact hi
    · show add64 c.runtime (sub64 now c.idlestop)
          + ((rest.filter (fun s => !s.1)).map
              (deltaOf (idleruntime_get false now c).1)).sum < W
      have hmap : (rest.filter (fun s => !s.1)).map
            (deltaOf (idleruntime_get false now c).1)
          = (rest.filter (fun s => !s.1)).map (deltaOf c) :=
        List.map_congr_left (fun s _ => rfl)
      rw [hmap, hradd]
      omega
  · -- idle: idletime += now - idlestart
    simp only [if_true] at hhead
    have hd : sub64 now c.idlestart = now - c.idlestart :=
      sub64_of_le hhead.1 hhead.2
    simp only [List.filter_cons, decide_True, Bool.not_true, decide_False,
      if_true, if_false, List.map_cons, List.sum_cons, deltaOf] at hi hr
    have hiadd : add64 c.idletime (sub64 now c.idlestart)
        = c.idletime + (now - c.idlestart) := by
      rw [hd]; exact add64_of_lt (by omega)
    refine ⟨rfl, rfl, ?_, le_rfl, ?_, ?_, ?_⟩
    · show c.idletime ≤ add64 c.idletime (sub64 now c.idlestart)
      rw [hiadd]; omega
    · exact htail
    · show add64 c.idletime (sub64 now c.idlestart)
          + ((rest.filter (fun s => s.1)).map
              (deltaOf (idleruntime_get true now c).1)).sum < W
      have hmap : (rest.filter (fun s => s.1)).map
            (deltaOf (idleruntime_get true now c).1)
          = (rest.filter (fun s => s.1)).map (deltaOf c) :=
        List.map_congr_left (fun s _ => rfl)
      rw [hmap, hiadd]
      omega
    · show (idleruntime_get true now c).1.runtime
          + ((rest.filter (fun s => !s.1)).map
              (deltaOf (idleruntime_get true now c).1)).sum < W
      have hmap : (rest.filter (fun s => !s.1)).map
            (deltaOf (idleruntime_get true now c).1)
          = (rest.filter (fun s => !s.1)).map (deltaOf c) :=
        List.map_congr_left (fun s _ => rfl)
      rw [hmap]
      exact hr

/-- Every total reported during a good run is at least the cell's current
accumulator pair. -/
theorem runGets_ge (ss : List (Bool × Nat)) (c : Cell) (h : goodRun c ss) :
    ∀ q ∈ runGets c ss, c.idletime ≤ q.1 ∧ c.runtime ≤ q.2 := by
  induction ss generalizing c with
  | nil => intro q hq; simp [runGets] at hq
  | cons s rest ih =>
    obtain ⟨b, now⟩ := s
    have hstep := goodRun_step c b now rest h
    intro q hq
    simp only [runGets, List.mem_cons] at hq
    rcases hq with rfl | hq
    · exact ⟨hstep.2.2.1, hstep.2.2.2.1⟩
    · have hrec := ih _ hstep.2.2.2.2 q hq
      exact ⟨le_trans hstep.2.2.1 hrec.1, le_trans hstep.2.2.2.1 hrec.2⟩

/-- C6: in any sequence of successive `idleruntime_get` calls on one cell
with no intervening reset, sampled at 64-bit clock values not behind the
marks and without accumulator overflow, the reported idle totals and run
totals are non-decreasing: no later read observes a smaller value than an
earlier read, in either field. -/
theorem C6_monotone_reads (ss : List (Bool × Nat)) (c : Cell)
    (h : goodRun c ss) :
    List.Pairwise (fun p q : Nat × Nat => p.1 ≤ q.1 ∧ p.2 ≤ q.2)
      (runGets c ss) := by
  induction ss generalizing c with
  | nil => simp [runGets]
  | cons s rest ih =>
    obtain ⟨b, now⟩ := s
    have hstep := goodRun_step c b now rest h
    simp only [runGets]
    refine List.Pairwise.cons ?_ (ih _ hstep.2.2.2.2)
    intro q hq
    have hrec := runGets_ge rest _ hstep.2.2.2.2 q hq
    exact ⟨hrec.1, hrec.2⟩

/-- C6 witness: a concrete three-read sequence (idle at 3, running at 5,
idle at 9) on a fresh cell is pairwise non-decreasing in both fields. -/
theorem C6_monotone_reads_witness :
    goodRun ⟨0, 0, 0, 0⟩ [(true, 3), (false, 5), (true, 9)]
    ∧ List.Pairwise (fun p q : Nat × Nat => p.1 ≤ q.1 ∧ p.2 ≤ q.2)
        (runGets ⟨0, 0, 0, 0⟩ [(true, 3), (false, 5), (true, 9)]) :=
  ⟨by decide,
    C6_monotone_reads [(true, 3), (false, 5), (true, 9)] ⟨0, 0, 0, 0⟩
      (by decide)⟩

/-! ### Aggregation (C7) -/

/-- The reported totals of the scan depend only on the cells of the CPUs
still to be scanned. -/
theorem show_all_go_congr (idle : Nat → Bool) (clk : Nat → Nat)
    (l : List Nat) :
    ∀ (cells1 cells2 : Nat → Cell) (ti tr : Nat),
      (∀ cpu ∈ l, cells1 cpu = cells2 cpu) →
      (show_all_go idle clk l cells1 ti tr).2
        = (show_all_go idle clk l cells2 ti tr).2 := by
  induction l with
  | nil => intro _ _ _ _ _; rfl
  | cons cpu rest ih =>
    intro cells1 cells2 ti tr hag
    have hc := hag cpu (List.mem_cons_self _ _)
    simp only [show_all_go, hc]
    apply ih
    intro cpu' hcpu'
    unfold setCell
    by_cases heq : cpu' = cpu
    · simp [heq]
    · simp only [if_neg heq]
      exact hag cpu' (List.mem_cons_of_mem _ hcpu')

/-- With a duplicate-free scan list, each CPU's contribution to the scan
is computed from its cell as it was when the scan started. -/
theorem show_all_go_totals (idle : Nat → Bool) (clk : Nat → Nat)
    (l : List Nat) :
    ∀ (cells : Nat → Cell) (ti tr : Nat), l.Nodup →
      (show_all_go idle clk l cells ti tr).2
        = (List.foldl (fun t cpu =>
              add64 t (idleruntime_get (idle cpu) (clk cpu) (cells cpu)).2.1)
            ti l,
           List.foldl (fun t cpu =>
              add64 t (idleruntime_get (idle cpu) (clk cpu) (cells cpu)).2.2)
            tr l) := by
  induction l with
  | nil => intro cells ti tr _; rfl
  | cons cpu rest ih =>
    intro cells ti tr hnd
    rw [List.nodup_cons] at hnd
    simp only [show_all_go, List.foldl_cons]
    have hcg := show_all_go_congr idle clk rest
      (setCell cells cpu
        (idleruntime_get (idle cpu) (clk cpu) (cells cpu)).1)
      cells
      (add64 ti (idleruntime_get (idle cpu) (clk cpu) (cells cpu)).2.1)
      (add64 tr (idleruntime_get (idle cpu) (clk cpu) (cells cpu)).2.2)
      (by
        intro cpu' hcpu'
        unfold setCell
        have hne : cpu' ≠ cpu := fun h => hnd.1 (h ▸ hcpu')
        simp [hne])
    rw [hcg, ih cells _ _ hnd.2]

/-- Folding wrap-around additions of per-CPU values is the plain sum when
the plain sum does not overflow. -/
theorem foldl_addval_sum (g : Nat → Nat) (l : List Nat) :
    ∀ t, t + (l.map g).sum < W →
      List.foldl (fun t' cpu => add64 t' (g cpu)) t l = t + (l.map g).sum := by
  induction l with
  | nil => intro t _; simp
  | cons cpu rest ih =>
    intro t h
    simp only [List.map_cons, List.sum_cons] at h ⊢
    simp only [List.foldl_cons]
    rw [add64_of_lt (by omega), ih (t + g cpu) (by omega)]
    omega

/-- C7: when the scan list has no duplicate CPU, every scanned CPU has
its data file (so `read_core` succeeds on it), and the two plain sums fit
in 64 bits, `idleruntime_show_all` reports exactly the componentwise sum
of the per-CPU values that `read_core` reports for each present CPU from
the same starting state (same clock values, no transition in between). -/
theorem C7_aggregate (idle : Nat → Bool) (clk : Nat → Nat) (d : Domain)
    (hnd : d.present.Nodup)
    (hfile : ∀ cpu ∈ d.present, d.dataFile cpu = true)
    (hi : (d.present.map (fun cpu =>
        (idleruntime_get (idle cpu) (clk cpu) (d.cells cpu)).2.1)).sum < W)
    (hr : (d.present.map (fun cpu =>
        (idleruntime_get (idle cpu) (clk cpu) (d.cells cpu)).2.2)).sum < W) :
    (∀ cpu ∈ d.present,
        (read_core idle clk cpu d).toOption.map (fun r => r.2)
          = some ((idleruntime_get (idle cpu) (clk cpu) (d.cells cpu)).2))
    ∧ (idleruntime_show_all idle clk d).2
        = ((d.present.map (fun cpu =>
              (idleruntime_get (idle cpu) (clk cpu) (d.cells cpu)).2.1)).sum,
           (d.present.map (fun cpu =>
              (idleruntime_get (idle cpu) (clk cpu) (d.cells cpu)).2.2)).sum) := by
  constructor
  · intro cpu hcpu
    unfold read_core
    rw [hfile cpu hcpu]
    rfl
  · show (show_all_go idle clk d.present d.cells 0 0).2 = _
    rw [show_all_go_totals idle clk d.present d.cells 0 0 hnd]
    have h1 := foldl_addval_sum
      (fun cpu => (idleruntime_get (idle cpu) (clk cpu) (d.cells cpu)).2.1)
      d.present 0 (by simpa using hi)
    have h2 := foldl_addval_sum
      (fun cpu => (idleruntime_get (idle cpu) (clk cpu) (d.cells cpu)).2.2)
      d.present 0 (by simpa using hr)
    simp only [Nat.zero_add] at h1 h2
    rw [h1, h2]

/-- C7 witness: a concrete two-CPU domain where the aggregate read equals
the sum of the two per-CPU reads. -/
theorem C7_aggregate_witness :
    (aggDomain.present.Nodup
     ∧ (∀ cpu ∈ aggDomain.present, aggDomain.dataFile cpu = true)
     ∧ (aggDomain.present.map (fun cpu =>
          (idleruntime_get true 2 (aggDomain.cells cpu)).2.1)).sum < W
     ∧ (aggDomain.present.map (fun cpu =>
          (idleruntime_get true 2 (aggDomain.cells cpu)).2.2)).sum < W)
    ∧ ((∀ cpu ∈ aggDomain.present,
         (read_core (fun _ => true) (fun _ => 2) cpu aggDomain).toOption.map
            (fun r => r.2)
           = some ((idleruntime_get true 2 (aggDomain.cells cpu)).2))
       ∧ (idleruntime_show_all (fun _ => true) (fun _ => 2) aggDomain).2
           = ((aggDomain.present.map (fun cpu =>
                (idleruntime_get true 2 (aggDomain.cells cpu)).2.1)).sum,
              (aggDomain.present.map (fun cpu =>
                (idleruntime_get true 2 (aggDomain.cells cpu)).2.2)).sum)) :=
  ⟨⟨by decide, by decide, by decide, by decide⟩,
    C7_aggregate (fun _ => true) (fun _ => 2) aggDomain (by decide)
      (by decide) (by decide) (by decide)⟩

/-! ### Lifecycle (C8, C9) -/

/-- The notifier dispatches `CPU_ONLINE` to `setup_procfiles` and returns
`NOTIFY_OK`. -/
theorem callback_online (cpu : Nat) (d : Domain) :
    idleruntime_cpu_callback CPU_ONLINE cpu d
      = (setup_procfiles cpu d, NOTIFY_OK) := rfl

/-- The notifier dispatches `CPU_DEAD` to `unset_procfiles` and returns
`NOTIFY_OK`. -/
theorem callback_dead (cpu : Nat) (d : Domain) :
    idleruntime_cpu_callback CPU_DEAD cpu d
      = (unset_procfiles cpu d, NOTIFY_OK) := rfl

/-- Neither lifecycle path touches the per-CPU accounting cells. -/
theorem unset_cells (cpu : Nat) (d : Domain) :
    (unset_procfiles cpu d).cells = d.cells := by
  unfold unset_procfiles
  split <;> rfl

/-- Neither lifecycle path touches the per-CPU accounting cells. -/
theorem setup_cells (cpu : Nat) (d : Domain) :
    (setup_procfiles cpu d).cells = d.cells := by
  unfold setup_procfiles
  split <;> rfl

/-- Tearing down an exposed CPU removes its `data` entry. -/
theorem unset_dataFile_self (cpu : Nat) (d : Domain)
    (h : d.dirHandle cpu = true) :
    (unset_procfiles cpu d).dataFile cpu = false := by
  unfold unset_procfiles
  rw [h]
  simp [setBool]

/-- Tearing down an exposed CPU unregisters its procfs name. -/
theorem unset_procName_self (cpu : Nat) (d : Domain)
    (h : d.dirHandle cpu = true) :
    (unset_procfiles cpu d).procName cpu = false := by
  unfold unset_procfiles
  rw [h]
  simp [setBool]

/-- Setting up a CPU whose procfs name is free creates its `data`
entry. -/
theorem setup_dataFile_self (cpu : Nat) (d : Domain)
    (h : d.procName cpu = false) :
    (setup_procfiles cpu d).dataFile cpu = true := by
  unfold setup_procfiles
  rw [h]
  simp [setBool]

/-- Setting up a CPU whose procfs name is already registered (a duplicate
join) only nulls the stored directory handle. -/
theorem setup_dup (cpu : Nat) (d : Domain) (h : d.procName cpu = true) :
    setup_procfiles cpu d
      = { d with dirHandle := setBool d.dirHandle cpu false } := by
  unfold setup_procfiles
  rw [h]
  rfl

/-- A read of an absent `data` file fails. -/
theorem read_core_absent (idle : Nat → Bool) (clk : Nat → Nat) (id : Nat)
    (d : Domain) (h : d.dataFile id = false) :
    read_core idle clk id d = Except.error DomainError.UnknownCoreError := by
  unfold read_core
  rw [h]
  rfl

/-- A write to an absent `reset` file fails. -/
theorem reset_core_absent (clk : Nat → Nat) (id : Nat) (d : Domain)
    (h : d.dataFile id = false) :
    reset_core clk id d = Except.error DomainError.UnknownCoreError := by
  unfold reset_core
  rw [h]
  rfl

/-- A read of a present `data` file reports that CPU's
`idleruntime_get` pair. -/
theorem read_core_present_vals (idle : Nat → Bool) (clk : Nat → Nat)
    (id : Nat) (d : Domain) (h : d.dataFile id = true) :
    (read_core idle clk id d).toOption.map (fun r => r.2)
      = some ((idleruntime_get (idle id) (clk id) (d.cells id)).2) := by
  unfold read_core
  rw [h]
  rfl

/-- C8 counterexample: from a domain where CPU 0 is exposed and its cell
holds an idle accumulator of 100, a `CPU_DEAD` event makes `read_core`
fail with `UnknownCoreError` (the claim's first half), but after a
subsequent `CPU_ONLINE` event `read_core` reports an idle total of 100 —
not accumulators starting near zero: the hotplug callback never creates a
fresh cell nor zeroes the per-CPU variables, it only re-creates the
procfs exposure. -/
theorem C8_counterexample :
    errorOf (read_core (fun _ => true) (fun _ => 0) 0
        (idleruntime_cpu_callback CPU_DEAD 0 leaveJoinDomain).1)
      = some DomainError.UnknownCoreError
    ∧ ((read_core (fun _ => true) (fun _ => 0) 0
          (idleruntime_cpu_callback CPU_ONLINE 0
            (idleruntime_cpu_callback CPU_DEAD 0 leaveJoinDomain).1).1
        ).toOption.map (fun r => r.2))
      = some (100, 0)
    ∧ (100 : Nat) ≠ 0 := by
  decide

/-- C8 amended: after a `CPU_DEAD` (core leave) event, `read_core` and
`reset_core` for that CPU both fail with `UnknownCoreError`; after a
subsequent `CPU_ONLINE` (core rejoin) event, `read_core` succeeds but
reports the totals computed from the cell as it was before the leave —
the accumulators are carried over, not restarted near zero, because the
callback touches only the procfs exposure and never the four per-CPU
accounting variables. -/
theorem C8_amended_lifecycle (idle : Nat → Bool) (clk : Nat → Nat)
    (d : Domain) (id : Nat) (hdir : d.dirHandle id = true) :
    errorOf (read_core idle clk id
        (idleruntime_cpu_callback CPU_DEAD id d).1)
      = some DomainError.UnknownCoreError
    ∧ errorOf (reset_core clk id
        (idleruntime_cpu_callback CPU_DEAD id d).1)
      = some DomainError.UnknownCoreError
    ∧ ((read_core idle clk id
          (idleruntime_cpu_callback CPU_ONLINE id
            (idleruntime_cpu_callback CPU_DEAD id d).1).1
        ).toOption.map (fun r => r.2))
      = some ((idleruntime_get (idle id) (clk id) (d.cells id)).2) := by
  have hdead : (idleruntime_cpu_callback CPU_DEAD id d).1
      = unset_procfiles id d := by rw [callback_dead]
  have hdf : (unset_procfiles id d).dataFile id = false :=
    unset_dataFile_self id d hdir
  have hpn : (unset_procfiles id d).procName id = false :=
    unset_procName_self id d hdir
  refine ⟨?_, ?_, ?_⟩
  · rw [hdead, read_core_absent _ _ _ _ hdf]
    rfl
  · rw [hdead, reset_core_absent _ _ _ hdf]
    rfl
  · have honline :
        (idleruntime_cpu_callback CPU_ONLINE id (unset_procfiles id d)).1
          = setup_procfiles id (unset_procfiles id d) := by
      rw [callback_online]
    rw [hdead, honline]
    have hdf2 : (setup_procfiles id (unset_procfiles id d)).dataFile id
        = true := setup_dataFile_self _ _ hpn
    rw [read_core_present_vals _ _ _ _ hdf2]
    rw [setup_cells, unset_cells]

/-- C8 witness: the amended lifecycle behaviour on the concrete domain
with an idle accumulator of 100 carried across leave and rejoin. -/
theorem C8_amended_lifecycle_witness :
    leaveJoinDomain.dirHandle 0 = true
    ∧ (errorOf (read_core (fun _ => true) (fun _ => 0) 0
          (idleruntime_cpu_callback CPU_DEAD 0 leaveJoinDomain).1)
        = some DomainError.UnknownCoreError
       ∧ errorOf (reset_core (fun _ => 0) 0
          (idleruntime_cpu_callback CPU_DEAD 0 leaveJoinDomain).1)
        = some DomainError.UnknownCoreError
       ∧ ((read_core (fun _ => true) (fun _ => 0) 0
            (idleruntime_cpu_callback CPU_ONLINE 0
              (idleruntime_cpu_callback CPU_DEAD 0 leaveJoinDomain).1).1
          ).toOption.map (fun r => r.2))
        = some ((idleruntime_get true 0 (leaveJoinDomain.cells 0)).2)) :=
  ⟨by decide,
    C8_amended_lifecycle (fun _ => true) (fun _ => 0) leaveJoinDomain 0
      (by decide)⟩

/-- C9 counterexample: a second `CPU_ONLINE` notification for an
already-exposed CPU does not fail with `DuplicateCoreError` — the
notifier has no error channel and returns `NOTIFY_OK`, exactly the value
returned by the first, successful join; the cell's fields are untouched
(that half of the claim holds). -/
theorem C9_counterexample :
    (idleruntime_cpu_callback CPU_ONLINE 0 freshDomain).2 = NOTIFY_OK
    ∧ (idleruntime_cpu_callback CPU_ONLINE 0
        (idleruntime_cpu_callback CPU_ONLINE 0 freshDomain).1).2 = NOTIFY_OK
    ∧ (idleruntime_cpu_callback CPU_ONLINE 0
        (idleruntime_cpu_callback CPU_ONLINE 0 freshDomain).1).1.cells 0
      = freshDomain.cells 0 := by
  decide

/-- C9 amended: a duplicate join reports no error: the callback returns
`NOTIFY_OK` as on a successful join.  The nested `proc_mkdir` fails on
the existing name, so no new exposure is created (`procName` and
`dataFile` maps unchanged), the cell map — in particular the first cell's
four fields — is untouched, but the stored per-CPU directory handle is
overwritten with NULL. -/
theorem C9_amended_duplicate_join (d : Domain) (id : Nat)
    (hname : d.procName id = true) :
    (idleruntime_cpu_callback CPU_ONLINE id d).2 = NOTIFY_OK
    ∧ (idleruntime_cpu_callback CPU_ONLINE id d).1.cells = d.cells
    ∧ (idleruntime_cpu_callback CPU_ONLINE id d).1.procName = d.procName
    ∧ (idleruntime_cpu_callback CPU_ONLINE id d).1.dataFile = d.dataFile
    ∧ (idleruntime_cpu_callback CPU_ONLINE id d).1.dirHandle id = false := by
  rw [callback_online id d, setup_dup id d hname]
  refine ⟨rfl, rfl, rfl, rfl, ?_⟩
  simp [setBool]

/-- C9 witness: the duplicate-join behaviour on the concrete exposed
domain. -/
theorem C9_amended_duplicate_join_witness :
    leaveJoinDomain.procName 0 = true
    ∧ ((idleruntime_cpu_callback CPU_ONLINE 0 leaveJoinDomain).2 = NOTIFY_OK
       ∧ (idleruntime_cpu_callback CPU_ONLINE 0 leaveJoinDomain).1.cells
           = leaveJoinDomain.cells
       ∧ (idleruntime_cpu_callback CPU_ONLINE 0 leaveJoinDomain).1.procName
           = leaveJoinDomain.procName
       ∧ (idleruntime_cpu_callback CPU_ONLINE 0 leaveJoinDomain).1.dataFile
           = leaveJoinDomain.dataFile
       ∧ (idleruntime_cpu_callback CPU_ONLINE 0 leaveJoinDomain).1.dirHandle 0
           = false) :=
  ⟨by decide, C9_amended_duplicate_join leaveJoinDomain 0 (by decide)⟩
